import Mathlib

/-!
Shallow embedding of `ptsa/data/readers/BaseRawReader.py`.

`BaseRawReader` reads multi-channel EEG data either from flat per-channel
binary files (`read_binary`) or from a combined HDF5 container (`read_hdf5`),
returning a channels x start_offsets x read_size tensor together with a
per-(channel, offset) validity mask.  The embedding models:

* machine integers as `Nat`/`Int`, file bytes as `List Nat` (each entry one
  byte), NaN-filled float cells as `Option Rat` (`none` is the NaN sentinel);
* the filesystem as explicit lookup functions (`FS`);
* Python exceptions as `Except String`;
* `print`/`warnings.warn` messages as explicitly returned lists of strings;
* `struct.unpack` of the fixed-width little-endian formats as a signed
  little-endian integer decode (the mask / shape logic of the reader never
  inspects decoded values, only their count, so this also covers the float
  formats at the level of the properties considered here).
-/

set_option autoImplicit false

deriving instance DecidableEq for Except

namespace BaseRawReader

attribute [local semireducible] Rat.mul

/-- The namedtuple `FileFormat` with fields `data_size` and `format_string`
(line 44 of the source). -/
structure FileFormat where
  data_size : Nat
  format_string : Char
deriving DecidableEq

/-- The table `self.file_format_dict` (lines 45-53 of the source). -/
def file_format_dict (name : String) : Option FileFormat :=
  match name with
  | "single" => some ⟨4, 'f'⟩
  | "float32" => some ⟨4, 'f'⟩
  | "short" => some ⟨2, 'h'⟩
  | "int16" => some ⟨2, 'h'⟩
  | "int32" => some ⟨4, 'i'⟩
  | "double" => some ⟨8, 'd'⟩
  | "float64" => some ⟨8, 'd'⟩
  | _ => none

/-- The keys of `file_format_dict`, in Python dict insertion order (used by the
`Unsupported format` error message of lines 67-68). -/
def allowedFormatNames : List String :=
  ["single", "float32", "short", "int16", "int32", "double", "float64"]

/-- The entry of `self.file_format_dict` at key `int16` (line 55): the default
format when the params file carries no `format` key. -/
def int16Format : FileFormat := ⟨2, 'h'⟩

/-- The `RuntimeError` message of lines 67-68.  Python renders the key list
with quoted entries; the embedding renders the same names unquoted. -/
def unsupportedFormatMsg (name : String) : String :=
  "Unsupported format: " ++ name ++ ". Allowed format names are: [" ++
    String.intercalate ", " allowedFormatNames ++ "]"

/-- The `RuntimeWarning` message of lines 70-71. -/
def missingFormatWarning : String :=
  "Could not find data format definition in the params file. Will read the file assuming data format is int16"

/-- The params mapping produced by the external `ParamsReader` collaborator
(consumed read-only here): the `format` key may be absent. -/
structure ParamsDict where
  format : Option String
  gain : Rat
  samplerate : Rat
deriving DecidableEq

/-- Format resolution inside `__init__` (lines 55-71): a recognized `format`
key selects its table entry; an unrecognized one raises `RuntimeError`; an
absent key falls back to `int16` with a `RuntimeWarning` (returned here as the
second component). -/
def resolveFileFormat (p : ParamsDict) : Except String (FileFormat × List String) :=
  match p.format with
  | none => .ok (int16Format, [missingFormatWarning])
  | some name =>
    match file_format_dict name with
    | some f => .ok (f, [])
    | none => .error (unsupportedFormatMsg name)

/-- The state of a constructed `BaseRawReader`: the `_descriptors` attributes
(lines 19-25) plus the resolved file format and the params values used by
`read`.  The filesystem is *not* part of the state: it is passed separately to
the read operations, mirroring that `__init__` opens no channel data file. -/
structure ReaderState where
  dataroot : String
  channels : List String
  start_offsets : List Int
  read_size : Int
  file_format : FileFormat
  gain : Rat
  samplerate : Rat
deriving DecidableEq

/-- Constructor `__init__` (lines 27-71): stores the caller attributes and
resolves the file format from the params mapping.  It touches no channel data
file (`FS` is not an argument); returned warnings model `warnings.warn`. -/
def mkReader (dataroot : String) (channels : List String) (start_offsets : List Int)
    (read_size : Int) (p : ParamsDict) : Except String (ReaderState × List String) :=
  match resolveFileFormat p with
  | .error e => .error e
  | .ok (f, ws) =>
    .ok ({ dataroot := dataroot, channels := channels, start_offsets := start_offsets,
           read_size := read_size, file_format := f, gain := p.gain,
           samplerate := p.samplerate }, ws)

/-- An HDF5 container as used by `read_hdf5` (lines 112-141): a `ports` index,
a 2-D `eeg_timeseries` dataset, and an optional `by_row` attribute. -/
structure Hdf5File where
  by_row : Option Bool
  ports : List Int
  timeseries : List (List Rat)
deriving DecidableEq

/-- The filesystem: per-channel flat binary files (byte lists) and HDF5
containers, both looked up by file name. -/
structure FS where
  files : String → Option (List Nat)
  h5files : String → Option Hdf5File

/-- The per-channel file name: `self.dataroot`, a literal dot, then the
channel label (lines 83 and 164). -/
def eegFileName (dataroot ch : String) : String := dataroot ++ "." ++ ch

/-- The `IOError` raised by `open` and `os.path.getsize` on a missing file. -/
def fileNotFoundMsg (name : String) : String :=
  "IOError: no such file or directory: " ++ name

/-- The `IndexError` raised by `self.channels[0]` on an empty channel array
(line 79). -/
def indexErrorMsg : String :=
  "IndexError: index 0 is out of bounds for axis 0 with size 0"

/-- The method `get_file_size` (lines 73-84): the byte length of the first
channel file. -/
def get_file_size (fs : FS) (s : ReaderState) : Except String Nat :=
  match s.channels with
  | [] => .error indexErrorMsg
  | ch :: _ =>
    match fs.files (eegFileName s.dataroot ch) with
    | none => .error (fileNotFoundMsg (eegFileName s.dataroot ch))
    | some file => .ok file.length

/-- Lines 152-153: `if self.read_size < 0: self.read_size =
int(self.get_file_size() / self.file_format.data_size)`. -/
def resolveReadSize (fs : FS) (s : ReaderState) : Except String Int :=
  if s.read_size < 0 then
    match get_file_size fs s with
    | .error e => .error e
    | .ok n => .ok ((n / s.file_format.data_size : Nat) : Int)
  else .ok s.read_size

/-- Little-endian byte-list to natural number. -/
def leNat : List Nat → Nat
  | [] => 0
  | b :: bs => b + 256 * leNat bs

/-- Twos-complement reinterpretation of a `w`-byte little-endian value as a
signed integer (the `<h`/`<i` decode of `struct.unpack`). -/
def toSigned (w : Nat) (n : Nat) : Int :=
  if 2 * n < 2 ^ (8 * w) then (n : Int) else (n : Int) - 2 ^ (8 * w)

/-- Fuel-indexed worker for `decodeChunks`; the fuel is an upper bound on the
byte count, so structural recursion suffices. -/
def decodeChunksAux (ds : Nat) : Nat → List Nat → List Int
  | 0, _ => []
  | _ + 1, [] => []
  | k + 1, b :: bs => toSigned ds (leNat ((b :: bs).take ds)) :: decodeChunksAux ds k ((b :: bs).drop ds)

/-- Decode a byte list as consecutive `ds`-byte little-endian signed values. -/
def decodeChunks (ds : Nat) (data : List Nat) : List Int :=
  if ds = 0 then [] else decodeChunksAux ds data.length data

/-- The `struct.error` message raised when the buffer length does not match
the item count computed as `int(len(data) / data_size)` (lines 185-186). -/
def structErrorMsg (ds len : Nat) : String :=
  "struct.error: unpack requires a buffer of " ++ toString (ds * (len / ds)) ++ " bytes"

/-- The call `struct.unpack(fmt, data)` where `fmt` is built from the item
count `int(len(data)/data_size)` and the format character (lines 185-186):
raises iff the byte count is not a whole multiple of the item width, else
decodes little-endian fixed-width values. -/
def unpack (ds : Nat) (data : List Nat) : Except String (List Int) :=
  if data.length % ds = 0 then .ok (decodeChunks ds data)
  else .error (structErrorMsg ds data.length)

/-- The warning printed for a negative start offset (line 174). -/
def negOffsetMsg (off : Int) (name : String) : String :=
  "Cannot read from negative offset " ++ toString off ++ " in file " ++ name

/-- The warning printed for a truncated read (lines 192-194; the source
concatenates the two literals with no separating space and a double space
before `is`). -/
def truncReadMsg (off : Int) (name : String) : String :=
  "Cannot read full chunk of data for offset " ++ toString off ++
    "End of read interval  is outside the bounds of file " ++ name

/-- The bytes returned by `efile.seek(data_size * start_offset); data =
efile.read(int(data_size * read_size))` (lines 178-181): a file read past
end-of-file silently returns fewer bytes. -/
def readBytes (fmt : FileFormat) (rs : Nat) (file : List Nat) (off : Int) : List Nat :=
  (file.drop (fmt.data_size * off.toNat)).take (fmt.data_size * rs)

/-- One iteration of the start-offset loop of `read_binary` (lines 170-197).
Result `.ok (none, w)` means the slice stays NaN and the mask entry is set
`False` (with printed warnings `w`); `.ok (some vals, [])` means the slice is
written with `vals` and the mask entry stays `True`; `.error` is a raised
`struct.error` aborting the call. -/
def processOffset (fmt : FileFormat) (rs : Nat) (name : String) (file : List Nat)
    (off : Int) : Except String (Option (List Int) × List String) :=
  if off < 0 then .ok (none, [negOffsetMsg off name])
  else
    match unpack fmt.data_size (readBytes fmt rs file off) with
    | .error e => .error e
    | .ok vals =>
      if vals.length < rs then .ok (none, [truncReadMsg off name])
      else .ok (some vals, [])

/-- Effectful map over a list in the `Except` monad, aborting at the first
error (a raised Python exception aborts the enclosing loop). -/
def mapME {α β : Type} (f : α → Except String β) : List α → Except String (List β)
  | [] => .ok []
  | x :: xs =>
    match f x with
    | .error e => .error e
    | .ok y =>
      match mapME f xs with
      | .error e => .error e
      | .ok ys => .ok (y :: ys)

/-- One iteration of the channel loop of `read_binary` (lines 162-197): open
the file of the channel (`IOError` if absent) and run the offset loop. -/
def readChannel (fs : FS) (fmt : FileFormat) (rs : Nat) (dataroot : String)
    (offsets : List Int) (ch : String) :
    Except String (List (Option (List Int) × List String)) :=
  match fs.files (eegFileName dataroot ch) with
  | none => .error (fileNotFoundMsg (eegFileName dataroot ch))
  | some file => mapME (processOffset fmt rs (eegFileName dataroot ch) file) offsets

/-- A tensor slice after the offset loop: either still the NaN fill of
`np.empty(...) * np.nan` (line 156-157) or the decoded samples. -/
def renderSlice (rs : Nat) (o : Option (List Int)) : List (Option Rat) :=
  match o with
  | none => List.replicate rs none
  | some vals => vals.map (fun v => some ((v : Int) : Rat))

/-- The observable outcome of `read_binary`: the (possibly resolved, and
pinned back into `self.read_size`) read size, the raw tensor, the
`read_ok_mask`, and the printed warnings. -/
structure RawResult where
  read_size : Int
  tensor : List (List (List (Option Rat)))
  mask : List (List Bool)
  warnings : List String
deriving DecidableEq

/-- Assembly of the per-channel, per-offset outcomes into the tensor
(line 197 writes valid slices; invalid slices keep the NaN fill), the mask
(lines 159, 173, 190), and the concatenated warnings. -/
def assemble (rs : Int) (rows : List (List (Option (List Int) × List String))) : RawResult :=
  { read_size := rs
  , tensor := rows.map (fun row => row.map (fun pr => renderSlice rs.toNat pr.1))
  , mask := rows.map (fun row => row.map (fun pr => pr.1.isSome))
  , warnings := (rows.map (fun row => (row.map Prod.snd).flatten)).flatten }

/-- The channel/offset loops of `read_binary` (lines 155-199), after the read
size has been resolved. -/
def read_binary_resolved (fs : FS) (fmt : FileFormat) (dataroot : String)
    (channels : List String) (offsets : List Int) (rs : Int) : Except String RawResult :=
  match mapME (readChannel fs fmt rs.toNat dataroot offsets) channels with
  | .error e => .error e
  | .ok rows => .ok (assemble rs rows)

/-- The method `read_binary` (lines 143-199): resolve the read size
(lines 152-153), then
run the channel loop with the single resolved value. -/
def read_binary (fs : FS) (s : ReaderState) : Except String RawResult :=
  match resolveReadSize fs s with
  | .error e => .error e
  | .ok rs => read_binary_resolved fs s.file_format s.dataroot s.channels s.start_offsets rs

/-- Accumulator pass of `pyInt` over the decimal digits. -/
def digitsVal : List Char → Nat → Nat
  | [], acc => acc
  | c :: cs, acc => digitsVal cs (acc * 10 + (c.toNat - 48))

/-- Python `int()` applied to a decimal channel label, as in
`self.channels.astype(int)` (line 116). -/
def pyInt (str : String) : Int :=
  match str.data with
  | '-' :: cs => -(digitsVal cs 0 : Int)
  | cs => (digitsVal cs 0 : Int)

/-- The channel selection of `read_hdf5` (lines 116, 119, 121, 130, 132):
`np.in1d(ports, channels)` masks the channel axis of `eeg_timeseries`; with
`by_row` the sample axis comes first and the selection is transposed. -/
def selectChannels (h : Hdf5File) (chans : List Int) : List (List Rat) :=
  if h.by_row = some true then
    ((List.range h.ports.length).filter (fun j => decide (h.ports.getD j 0 ∈ chans))).map
      (fun j => h.timeseries.map (fun row => row.getD j 0))
  else
    ((h.ports.zip h.timeseries).filter (fun pr => decide (pr.1 ∈ chans))).map Prod.snd

/-- The `TypeError` raised by line 126: `np.empty((len(self.channels,
len(self.start_offsets), self.read_size)), ...)` calls `len` with three
arguments. -/
def typeErrorMsg : String :=
  "TypeError: len() takes exactly one argument (3 given)"

/-- The method `read_hdf5` (lines 112-141).  The whole-file branch (`read_size < 0`)
collapses the offset axis to length 1 and returns an all-`True` mask of
`len(self.channels)` rows; the resolved branch always raises `TypeError` at
line 126 before reaching the offset loop. -/
def read_hdf5 (fs : FS) (s : ReaderState) :
    Except String (List (List (List (Option Rat))) × List (List Bool)) :=
  match fs.h5files s.dataroot with
  | none => .error (fileNotFoundMsg s.dataroot)
  | some h =>
    if s.read_size < 0 then
      .ok ((selectChannels h (s.channels.map pyInt)).map (fun row => [row.map some]),
           List.replicate s.channels.length [true])
    else .error typeErrorMsg

/-- The scaling `eventdata *= gain` of line 93; the NaN sentinel stays
NaN under the multiplication. -/
def applyGain (g : Rat) (t : List (List (List (Option Rat)))) :
    List (List (List (Option Rat))) :=
  t.map (fun a => a.map (fun b => b.map (fun x => x.map (fun v => v * g))))

/-- Python `str.endswith` (line 87), computed on the character lists. -/
def pyEndsWith (s suffix : String) : Bool := suffix.data.isSuffixOf s.data

/-- The `ValueError` raised by `DataArray(...)` (lines 95-104) when a
coordinate length conflicts with the corresponding data dimension. -/
def conflictingSizesMsg : String :=
  "ValueError: conflicting sizes for dimensions"

/-- The shape check performed by the `DataArray` construction of lines 95-104:
the data dimensions must match the lengths of the `channels`, `start_offsets`
and `offsets = np.arange(self.read_size)` coordinates. -/
def shapeOk (t : List (List (List (Option Rat)))) (nch noff ns : Nat) : Bool :=
  decide (t.length = nch) &&
    t.all (fun row => decide (row.length = noff) &&
      row.all (fun q => decide (q.length = ns)))

/-- The pair returned by `read`: the gain-scaled labeled tensor and the
validity mask, plus the printed warnings. -/
structure ReadResult where
  tensor : List (List (List (Option Rat)))
  mask : List (List Bool)
  warnings : List String
deriving DecidableEq

/-- The binary arm of `read` (lines 86-109): run `read_binary` (which pins the
resolved read size back into the instance), scale by the gain, and wrap in a
`DataArray` whose coordinate lengths must match the data shape. -/
def readBinPath (fs : FS) (s : ReaderState) : Except String (ReadResult × ReaderState) :=
  match read_binary fs s with
  | .error e => .error e
  | .ok out =>
    if shapeOk (applyGain s.gain out.tensor) s.channels.length s.start_offsets.length
        out.read_size.toNat = true then
      .ok ({ tensor := applyGain s.gain out.tensor, mask := out.mask,
             warnings := out.warnings }, { s with read_size := out.read_size })
    else .error conflictingSizesMsg

/-- The HDF5 arm of `read` (lines 86-109): `read_hdf5` leaves the reader state
unchanged; the gain and the `DataArray` shape check apply as in the binary
arm. -/
def readH5Path (fs : FS) (s : ReaderState) : Except String (ReadResult × ReaderState) :=
  match read_hdf5 fs s with
  | .error e => .error e
  | .ok pr =>
    if shapeOk (applyGain s.gain pr.1) s.channels.length s.start_offsets.length
        s.read_size.toNat = true then
      .ok ({ tensor := applyGain s.gain pr.1, mask := pr.2, warnings := [] }, s)
    else .error conflictingSizesMsg

/-- The method `read` (lines 86-109): dispatch on the dataroot suffix, exactly one
backend runs per call. -/
def read (fs : FS) (s : ReaderState) : Except String (ReadResult × ReaderState) :=
  if pyEndsWith s.dataroot "h5" = true then readH5Path fs s else readBinPath fs s

/-- The mask entry at channel index `c`, offset index `e`. -/
def maskAt (out : RawResult) (c e : Nat) : Bool :=
  (out.mask.getD c []).getD e false

/-- The tensor slice at channel index `c`, offset index `e`. -/
def sliceAt (out : RawResult) (c e : Nat) : List (Option Rat) :=
  (out.tensor.getD c []).getD e []

/-! ### Helper lemmas -/

lemma mapME_ok_length {α β : Type} {f : α → Except String β} :
    ∀ {l : List α} {ys : List β}, mapME f l = .ok ys → ys.length = l.length := by
  intro l
  induction l with
  | nil =>
    intro ys h
    simp only [mapME, Except.ok.injEq] at h
    subst h; rfl
  | cons x xs ih =>
    intro ys h
    simp only [mapME] at h
    cases hfx : f x <;> rw [hfx] at h
    · exact absurd h (by simp)
    · cases hm : mapME f xs <;> rw [hm] at h
      · exact absurd h (by simp)
      · simp only [Except.ok.injEq] at h
        subst h
        simp [ih hm]

lemma mapME_ok_getD {α β : Type} {f : α → Except String β} (d : α) (d2 : β) :
    ∀ {l : List α} {ys : List β}, mapME f l = .ok ys →
      ∀ {i : Nat}, i < l.length → f (l.getD i d) = .ok (ys.getD i d2) := by
  intro l
  induction l with
  | nil => intro ys _ i hi; simp at hi
  | cons x xs ih =>
    intro ys h i hi
    simp only [mapME] at h
    cases hfx : f x <;> rw [hfx] at h
    · exact absurd h (by simp)
    · cases hm : mapME f xs <;> rw [hm] at h
      · exact absurd h (by simp)
      · simp only [Except.ok.injEq] at h
        subst h
        cases i with
        | zero => simpa using hfx
        | succ n =>
          simp only [List.getD_cons_succ]
          exact ih hm (Nat.lt_of_succ_lt_succ hi)

lemma mapME_const_ok {α β : Type} {f : α → Except String β} {c : β} :
    ∀ {l : List α}, (∀ a ∈ l, f a = .ok c) →
      mapME f l = .ok (List.replicate l.length c) := by
  intro l
  induction l with
  | nil => intro _; rfl
  | cons x xs ih =>
    intro h
    simp only [mapME, h x (by simp), ih (fun a ha => h a (by simp [ha]))]
    simp [List.replicate_succ]

lemma getD_map_of_lt {α β : Type} (f : α → β) {l : List α} {i : Nat}
    (hi : i < l.length) (d1 : β) (d2 : α) :
    (l.map f).getD i d1 = f (l.getD i d2) := by
  induction l generalizing i with
  | nil => simp at hi
  | cons x xs ih =>
    cases i with
    | zero => simp
    | succ n =>
      simp only [List.map_cons, List.getD_cons_succ]
      exact ih (Nat.lt_of_succ_lt_succ hi)

lemma getD_mem_of_lt {α : Type} {l : List α} {i : Nat} (hi : i < l.length) (d : α) :
    l.getD i d ∈ l := by
  induction l generalizing i with
  | nil => simp at hi
  | cons x xs ih =>
    cases i with
    | zero => simp
    | succ n =>
      simp only [List.getD_cons_succ]
      exact List.mem_cons_of_mem _ (ih (Nat.lt_of_succ_lt_succ hi))

lemma flatten_replicate_nil {α : Type} : ∀ n : Nat, (List.replicate n ([] : List α)).flatten = [] := by
  intro n
  induction n with
  | zero => rfl
  | succ m ih => simp [List.replicate_succ, ih]

lemma decodeChunksAux_length_aligned {ds : Nat} (hds : 0 < ds) :
    ∀ (k fuel : Nat) (data : List Nat), data.length = ds * k → data.length ≤ fuel →
      (decodeChunksAux ds fuel data).length = k := by
  intro k
  induction k with
  | zero =>
    intro fuel data h _
    have hnil : data = [] := List.eq_nil_of_length_eq_zero (by simpa using h)
    subst hnil
    cases fuel <;> rfl
  | succ n ih =>
    intro fuel data h hf
    have hpos : 0 < data.length := by
      rw [h]; exact Nat.mul_pos hds (Nat.succ_pos n)
    have hne : data ≠ [] := by
      intro hnil; rw [hnil] at hpos; simp at hpos
    obtain ⟨b, bs, rfl⟩ := List.exists_cons_of_ne_nil hne
    cases fuel with
    | zero => omega
    | succ m =>
      simp only [decodeChunksAux, List.length_cons]
      have hlen : ((b :: bs).drop ds).length = ds * n := by
        rw [List.length_drop, h, Nat.mul_succ]; omega
      rw [ih m ((b :: bs).drop ds) hlen (by rw [List.length_drop]; omega)]

lemma decodeChunks_length_aligned {ds : Nat} {data : List Nat} (hds : 0 < ds)
    (hdvd : ds ∣ data.length) : (decodeChunks ds data).length = data.length / ds := by
  obtain ⟨k, hk⟩ := hdvd
  rw [decodeChunks, if_neg (Nat.pos_iff_ne_zero.mp hds),
    decodeChunksAux_length_aligned hds k data.length data hk le_rfl, hk,
    Nat.mul_div_cancel_left k hds]

lemma readBytes_length_le (fmt : FileFormat) (rs : Nat) (file : List Nat) (off : Int) :
    (readBytes fmt rs file off).length ≤ fmt.data_size * rs := by
  rw [readBytes, List.length_take]
  exact Nat.min_le_left _ _

lemma unpack_ok_length {ds : Nat} {data : List Nat} {vals : List Int}
    (h : unpack ds data = .ok vals) (hds : 0 < ds) : vals.length = data.length / ds := by
  rw [unpack] at h
  split at h
  · simp only [Except.ok.injEq] at h
    subst h
    exact decodeChunks_length_aligned hds (Nat.dvd_of_mod_eq_zero (by assumption))
  · exact absurd h (by simp)

lemma processOffset_ok_some_length {fmt : FileFormat} {rs : Nat} {name : String}
    {file : List Nat} {off : Int} {vals : List Int} {w : List String}
    (h : processOffset fmt rs name file off = .ok (some vals, w)) : vals.length = rs := by
  rw [processOffset] at h
  split at h
  · simp at h
  · split at h
    · simp at h
    · rename_i vals2 hu
      split at h
      · simp at h
      · rename_i hnlt
        simp only [Except.ok.injEq, Prod.mk.injEq, Option.some.injEq] at h
        obtain ⟨hv, -⟩ := h
        subst hv
        rcases Nat.eq_zero_or_pos fmt.data_size with hds | hds
        · have hlen0 : (readBytes fmt rs file off).length = 0 := by
            have := readBytes_length_le fmt rs file off
            rw [hds] at this
            omega
          rw [unpack, if_pos (by rw [hlen0]; simp)] at hu
          simp only [Except.ok.injEq] at hu
          have hz : vals2.length = 0 := by
            rw [← hu]
            simp [decodeChunks, hds]
          omega
        · have hlen := unpack_ok_length hu hds
          have hle : vals2.length ≤ rs := by
            rw [hlen]
            calc (readBytes fmt rs file off).length / fmt.data_size
                ≤ fmt.data_size * rs / fmt.data_size :=
                  Nat.div_le_div_right (readBytes_length_le fmt rs file off)
              _ = rs := Nat.mul_div_cancel_left rs hds
          omega

lemma renderSlice_length {fmt : FileFormat} {rs : Nat} {name : String}
    {file : List Nat} {off : Int} {o : Option (List Int)} {w : List String}
    (h : processOffset fmt rs name file off = .ok (o, w)) :
    (renderSlice rs o).length = rs := by
  cases o with
  | none => simp [renderSlice]
  | some vals => simp [renderSlice, processOffset_ok_some_length h]

lemma resolveReadSize_nonneg {fs : FS} {s : ReaderState} {rs : Int}
    (h : resolveReadSize fs s = .ok rs) : 0 ≤ rs := by
  rw [resolveReadSize] at h
  split at h
  · cases hg : get_file_size fs s <;> rw [hg] at h
    · simp at h
    · simp only [Except.ok.injEq] at h
      subst h
      exact Int.ofNat_nonneg _
  · simp only [Except.ok.injEq] at h
    subst h
    omega

/-- Successful `read_binary` decomposed: the resolved read size is recorded in
the result and the tensor, mask and warnings are assembled from the per-channel
rows of the loop. -/
lemma read_binary_ok_elim {fs : FS} {s : ReaderState} {out : RawResult}
    (h : read_binary fs s = .ok out) :
    resolveReadSize fs s = .ok out.read_size ∧
      ∃ rows,
        mapME (readChannel fs s.file_format out.read_size.toNat s.dataroot s.start_offsets)
            s.channels = .ok rows ∧
          out.tensor = rows.map (fun row => row.map (fun pr => renderSlice out.read_size.toNat pr.1)) ∧
          out.mask = rows.map (fun row => row.map (fun pr => pr.1.isSome)) ∧
          out.warnings = (rows.map (fun row => (row.map Prod.snd).flatten)).flatten := by
  rw [read_binary] at h
  split at h
  · simp at h
  · rename_i rs hr
    rw [read_binary_resolved] at h
    split at h
    · simp at h
    · rename_i rows hm
      simp only [Except.ok.injEq] at h
      subst h
      exact ⟨hr, rows, hm, rfl, rfl, rfl⟩

/-- A successful `read_binary` call found and opened the file of every
requested channel, and each channel row is the result of the offset loop on
that file. -/
lemma read_binary_channel {fs : FS} {s : ReaderState} {out : RawResult}
    (h : read_binary fs s = .ok out) {c : Nat} (hc : c < s.channels.length) :
    ∃ rows file,
      mapME (readChannel fs s.file_format out.read_size.toNat s.dataroot s.start_offsets)
          s.channels = .ok rows ∧
        rows.length = s.channels.length ∧
        out.tensor = rows.map (fun row => row.map (fun pr => renderSlice out.read_size.toNat pr.1)) ∧
        out.mask = rows.map (fun row => row.map (fun pr => pr.1.isSome)) ∧
        out.warnings = (rows.map (fun row => (row.map Prod.snd).flatten)).flatten ∧
        fs.files (eegFileName s.dataroot (s.channels.getD c "")) = some file ∧
        mapME (processOffset s.file_format out.read_size.toNat
            (eegFileName s.dataroot (s.channels.getD c "")) file) s.start_offsets =
          .ok (rows.getD c []) := by
  obtain ⟨-, rows, hm, ht, hk, hw⟩ := read_binary_ok_elim h
  have hch := mapME_ok_getD "" [] hm hc
  rw [readChannel] at hch
  cases hf : fs.files (eegFileName s.dataroot (s.channels.getD c "")) <;> rw [hf] at hch
  · simp at hch
  · rename_i file
    exact ⟨rows, file, hm, mapME_ok_length hm, ht, hk, hw, rfl, hch⟩

/-- A successful `read_binary` call implies the file of the requested channel is
present on the filesystem: a missing channel file is fatal for the whole
call. -/
lemma read_binary_files_present {fs : FS} {s : ReaderState} {out : RawResult}
    (h : read_binary fs s = .ok out) {c : Nat} (hc : c < s.channels.length) :
    (fs.files (eegFileName s.dataroot (s.channels.getD c ""))).isSome = true := by
  obtain ⟨rows, file, hm, hlen, ht, hk, hw, hf, hch⟩ := read_binary_channel h hc
  rw [hf]; rfl

/-- Pointwise characterization of a successful `read_binary`: every mask entry
and tensor slice is the outcome of `processOffset` on the own offset and
channel file of that slice alone, and the per-slice warnings surface in the
warning list of the call. -/
lemma read_binary_slice {fs : FS} {s : ReaderState} {out : RawResult}
    (h : read_binary fs s = .ok out) {c e : Nat}
    (hc : c < s.channels.length) (he : e < s.start_offsets.length) {file : List Nat}
    (hfile : fs.files (eegFileName s.dataroot (s.channels.getD c "")) = some file) :
    ∃ o w,
      processOffset s.file_format out.read_size.toNat
          (eegFileName s.dataroot (s.channels.getD c "")) file (s.start_offsets.getD e 0) =
        .ok (o, w) ∧
      maskAt out c e = o.isSome ∧
      sliceAt out c e = renderSlice out.read_size.toNat o ∧
      ∀ m ∈ w, m ∈ out.warnings := by
  obtain ⟨rows, file2, hm, hlen, ht, hk, hw, hf2, hch⟩ := read_binary_channel h hc
  rw [hfile] at hf2
  injection hf2 with hf2
  subst hf2
  have hrowlen : (rows.getD c []).length = s.start_offsets.length := mapME_ok_length hch
  have hpe := mapME_ok_getD 0 (none, ([] : List String)) hch he
  have hcr : c < rows.length := by omega
  have her : e < (rows.getD c []).length := by omega
  refine ⟨((rows.getD c []).getD e (none, [])).1, ((rows.getD c []).getD e (none, [])).2,
    by simpa using hpe, ?_, ?_, ?_⟩
  · rw [maskAt, hk,
      getD_map_of_lt _ hcr ([] : List Bool) ([] : List (Option (List Int) × List String)),
      getD_map_of_lt _ her false (none, ([] : List String))]
  · rw [sliceAt, ht,
      getD_map_of_lt _ hcr ([] : List (List (Option Rat))) ([] : List (Option (List Int) × List String)),
      getD_map_of_lt _ her ([] : List (Option Rat)) (none, ([] : List String))]
  · intro m hmem
    rw [hw]
    rw [List.mem_flatten]
    refine ⟨((rows.getD c []).map Prod.snd).flatten, List.mem_map_of_mem _ (getD_mem_of_lt hcr []), ?_⟩
    rw [List.mem_flatten]
    exact ⟨((rows.getD c []).getD e (none, [])).2,
      List.mem_map_of_mem _ (getD_mem_of_lt her (none, [])), hmem⟩

/-- Reading again with the pinned (resolved) read size reproduces the same
result: the mutation of `self.read_size` at line 153 is the only state change
of `read_binary`. -/
lemma read_binary_pin {fs : FS} {s : ReaderState} {out : RawResult}
    (h : read_binary fs s = .ok out) :
    read_binary fs { s with read_size := out.read_size } = .ok out := by
  rw [read_binary] at h
  split at h
  · simp at h
  · rename_i rs hr
    have hnn : (0 : Int) ≤ rs := resolveReadSize_nonneg hr
    have hrs : out.read_size = rs := by
      rw [read_binary_resolved] at h
      split at h
      · simp at h
      · rename_i rows hm
        simp only [Except.ok.injEq] at h
        subst h
        rfl
    have hr2 : resolveReadSize fs { s with read_size := out.read_size } = .ok rs := by
      rw [resolveReadSize, if_neg (by simp [hrs]; omega)]
      rw [hrs]
    rw [read_binary, hr2]
    exact h

/-- Equation lemma: `readBinPath` once the backend call is known to have
succeeded. -/
lemma readBinPath_ok {fs : FS} {s : ReaderState} {out : RawResult}
    (h : read_binary fs s = .ok out) :
    readBinPath fs s =
      (if shapeOk (applyGain s.gain out.tensor) s.channels.length s.start_offsets.length
          out.read_size.toNat = true then
        .ok ({ tensor := applyGain s.gain out.tensor, mask := out.mask
             , warnings := out.warnings }, { s with read_size := out.read_size })
      else .error conflictingSizesMsg) := by
  rw [readBinPath, h]

/-- Equation lemma: `readH5Path` once the backend call is known to have
succeeded. -/
lemma readH5Path_ok {fs : FS} {s : ReaderState}
    {pr : List (List (List (Option Rat))) × List (List Bool)}
    (h : read_hdf5 fs s = .ok pr) :
    readH5Path fs s =
      (if shapeOk (applyGain s.gain pr.1) s.channels.length s.start_offsets.length
          s.read_size.toNat = true then
        .ok ({ tensor := applyGain s.gain pr.1, mask := pr.2, warnings := [] }, s)
      else .error conflictingSizesMsg) := by
  rw [readH5Path, h]

/-! ### Concrete fixtures -/

/-- The eight little-endian int16 samples `[1..8]` of the scenario file of
the spec, as bytes. -/
def bytes16 : List Nat := [1, 0, 2, 0, 3, 0, 4, 0, 5, 0, 6, 0, 7, 0, 8, 0]

/-- A filesystem holding the single channel file `root.001` with the scenario
bytes. -/
def fsRoot : FS :=
  { files := fun n => if n = "root.001" then some bytes16 else none
  , h5files := fun _ => none }

/-- The scenario reader: dataroot `root`, one channel `001`, offsets `[0, 4]`,
read_size `4`, int16 format, gain `2`. -/
def sBase : ReaderState :=
  { dataroot := "root", channels := ["001"], start_offsets := [0, 4], read_size := 4
  , file_format := int16Format, gain := 2, samplerate := 500 }

/-- The raw (pre-gain) result of `read_binary` on the scenario reader. -/
def rawBase : RawResult :=
  { read_size := 4
  , tensor := [[[some 1, some 2, some 3, some 4], [some 5, some 6, some 7, some 8]]]
  , mask := [[true, true]]
  , warnings := [] }

/-- A filesystem whose channel file `root.001` is empty (zero bytes). -/
def fsEmptyFile : FS :=
  { files := fun n => if n = "root.001" then some ([] : List Nat) else none
  , h5files := fun _ => none }

/-- An empty filesystem: no channel files at all. -/
def fsNone : FS := { files := fun _ => none, h5files := fun _ => none }

/-- Reader with a single negative offset and unresolved read size, over the
empty channel file: the resolved read size is `0`. -/
def sNegUnresolved : ReaderState :=
  { sBase with start_offsets := [-1], read_size := -1 }

/-- The result of `read_binary` on `sNegUnresolved` over the empty file: the
read size resolves to `0`, the only slice is empty and marked invalid. -/
def rawZero : RawResult :=
  { read_size := 0, tensor := [[[]]], mask := [[false]]
  , warnings := [negOffsetMsg (-1) "root.001"] }

/-! ### Claims -/

/-- C2: for the dataset with one channel file `root.001` containing the eight
little-endian int16 samples `[1..8]`, gain `2.0`, start_offsets `[0, 4]` and
read_size `4`, `read` returns the tensor `[[[2,4,6,8],[10,12,14,16]]]` (raw
samples times the gain) and the mask `[[True, True]]` (and no warnings, with
the reader state unchanged). -/
theorem read_scenario_gain_tensor :
    read fsRoot sBase =
      .ok ({ tensor := [[[some 2, some 4, some 6, some 8],
                         [some 10, some 12, some 14, some 16]]]
           , mask := [[true, true]], warnings := [] }, sBase) := by
  decide

/-- C1 (counterexample): with an empty channel file and read_size `-1`, the
read size resolves to `0`; a negative offset `-1` then yields a slice marked
invalid in the mask whose (empty) tensor slice contains no sentinel — so
`mask[c][o] == True ⇔ slice contains no sentinel` fails in the ⇐ direction. -/
theorem mask_iff_no_sentinel_counterexample :
    read_binary fsEmptyFile sNegUnresolved = .ok rawZero ∧
      maskAt rawZero 0 0 = false ∧ ¬(none ∈ sliceAt rawZero 0 0) := by
  decide

/-- C1 (amended): in every successful `read_binary` call, a mask entry `True`
implies its tensor slice contains no sentinel; and whenever the resolved
read_size is positive, `mask[c][o] == True ⇔ tensor[c][o][:]` contains no
sentinel.  (The equivalence can only fail at read_size `0`, where an invalid
slice is empty and so vacuously sentinel-free.) -/
theorem mask_iff_no_sentinel (fs : FS) (s : ReaderState) (out : RawResult) (c e : Nat)
    (hok : read_binary fs s = .ok out)
    (hc : c < s.channels.length) (he : e < s.start_offsets.length) :
    (maskAt out c e = true → ¬(none ∈ sliceAt out c e)) ∧
      (0 < out.read_size → (maskAt out c e = true ↔ ¬(none ∈ sliceAt out c e))) := by
  have hfp := read_binary_files_present hok hc
  obtain ⟨file, hfile⟩ := Option.isSome_iff_exists.mp hfp
  obtain ⟨o, w, hpo, hmask, hslice, -⟩ := read_binary_slice hok hc he hfile
  have fwd : maskAt out c e = true → ¬(none ∈ sliceAt out c e) := by
    intro hm
    rw [hslice]
    cases o with
    | none => rw [hmask] at hm; simp at hm
    | some vals => simp [renderSlice]
  refine ⟨fwd, fun hrs => ⟨fwd, ?_⟩⟩
  intro hns
  rw [hmask]
  cases o with
  | some vals => rfl
  | none =>
    exfalso
    apply hns
    rw [hslice]
    have hne : out.read_size.toNat ≠ 0 := by omega
    simp [renderSlice, List.mem_replicate, hne]

/-- C1 (witness): the amended claim applied to the scenario reader at channel
0, offset 0. -/
theorem mask_iff_no_sentinel_witness :
    (maskAt rawBase 0 0 = true → ¬(none ∈ sliceAt rawBase 0 0)) ∧
      (0 < rawBase.read_size → (maskAt rawBase 0 0 = true ↔ ¬(none ∈ sliceAt rawBase 0 0))) :=
  mask_iff_no_sentinel fsRoot sBase rawBase 0 0 (by decide) (by decide) (by decide)

/-- C3: when read_size is unresolved (negative), a successful `read_binary`
resolves it to the byte length of the first channel file divided (integer division)
by the format byte width, records that single value in the result, and uses it
for every channel and offset: every tensor slice has exactly that length and
every mask row spans all offsets. -/
theorem read_size_resolution (fs : FS) (s : ReaderState) (out : RawResult)
    (ch : String) (rest : List String) (file : List Nat) (c e : Nat)
    (hch : s.channels = ch :: rest) (hneg : s.read_size < 0)
    (hfile : fs.files (eegFileName s.dataroot ch) = some file)
    (hok : read_binary fs s = .ok out)
    (hc : c < s.channels.length) (he : e < s.start_offsets.length) :
    out.read_size = ((file.length / s.file_format.data_size : Nat) : Int) ∧
      (sliceAt out c e).length = out.read_size.toNat ∧
      out.tensor.length = s.channels.length ∧
      (out.mask.getD c []).length = s.start_offsets.length := by
  obtain ⟨hr, rows, hm, ht, hk, hw⟩ := read_binary_ok_elim hok
  have hgf : get_file_size fs s = .ok file.length := by
    simp only [get_file_size, hch, hfile]
  have hres : out.read_size = ((file.length / s.file_format.data_size : Nat) : Int) := by
    rw [resolveReadSize, if_pos hneg, hgf] at hr
    simp only [Except.ok.injEq] at hr
    omega
  have hfp := read_binary_files_present hok hc
  obtain ⟨cfile, hcfile⟩ := Option.isSome_iff_exists.mp hfp
  obtain ⟨o, w, hpo, hmask, hslice, -⟩ := read_binary_slice hok hc he hcfile
  obtain ⟨rows2, file2, hm2, hlen2, ht2, hk2, hw2, hf2, hch2⟩ := read_binary_channel hok hc
  refine ⟨hres, ?_, ?_, ?_⟩
  · rw [hslice]
    exact renderSlice_length hpo
  · rw [ht, List.length_map, mapME_ok_length hm]
  · have hcr : c < rows2.length := by omega
    rw [hk2, getD_map_of_lt _ hcr ([] : List Bool) ([] : List (Option (List Int) × List String)),
      List.length_map]
    exact mapME_ok_length hch2

/-- C3 (witness): the scenario of the spec — read_size `-1` over the 16-byte
(8-sample) int16 file resolves to `8 = 16 / 2`, the single offset `[0]` yields
the full channel as one slice of length 8, and the mask row covers the single
offset. -/
theorem read_size_resolution_witness :
    read_binary fsRoot { sBase with start_offsets := [0], read_size := -1 } =
        .ok { read_size := 8
            , tensor := [[[some 1, some 2, some 3, some 4, some 5, some 6, some 7, some 8]]]
            , mask := [[true]], warnings := [] } ∧
      ({ read_size := 8
       , tensor := [[[some 1, some 2, some 3, some 4, some 5, some 6, some 7, some 8]]]
       , mask := [[true]], warnings := [] } : RawResult).read_size =
        ((bytes16.length / int16Format.data_size : Nat) : Int) ∧
      (sliceAt { read_size := 8
               , tensor := [[[some 1, some 2, some 3, some 4, some 5, some 6, some 7, some 8]]]
               , mask := [[true]], warnings := [] } 0 0).length = 8 := by
  refine ⟨by decide, ?_, ?_⟩
  · exact (read_size_resolution fsRoot { sBase with start_offsets := [0], read_size := -1 }
      _ "001" [] bytes16 0 0 (by decide) (by decide) (by decide) (by decide)
      (by decide) (by decide)).1
  · exact (read_size_resolution fsRoot { sBase with start_offsets := [0], read_size := -1 }
      _ "001" [] bytes16 0 0 (by decide) (by decide) (by decide) (by decide)
      (by decide) (by decide)).2.1

/-- C4: in a successful `read_binary` call, a negative start offset marks its
(channel, offset) slice invalid, leaves the tensor slice entirely as sentinel,
surfaces the recoverable warning, and the per-offset step at a negative offset
is itself a non-raising `.ok` outcome (processing continues rather than
aborting); the mask entry of every other slice is the outcome of
`processOffset` on the own offset of that slice alone, unaffected by the
negative offset. -/
theorem negative_offset_isolation (fs : FS) (s : ReaderState) (out : RawResult)
    (c e c2 e2 : Nat) (file file2 : List Nat)
    (hok : read_binary fs s = .ok out)
    (hc : c < s.channels.length) (he : e < s.start_offsets.length)
    (hneg : s.start_offsets.getD e 0 < 0)
    (hfile : fs.files (eegFileName s.dataroot (s.channels.getD c "")) = some file)
    (hc2 : c2 < s.channels.length) (he2 : e2 < s.start_offsets.length)
    (hfile2 : fs.files (eegFileName s.dataroot (s.channels.getD c2 "")) = some file2)
    (_hne : ¬(c2 = c ∧ e2 = e)) :
    maskAt out c e = false ∧
      sliceAt out c e = List.replicate out.read_size.toNat none ∧
      negOffsetMsg (s.start_offsets.getD e 0) (eegFileName s.dataroot (s.channels.getD c "")) ∈
        out.warnings ∧
      processOffset s.file_format out.read_size.toNat
          (eegFileName s.dataroot (s.channels.getD c "")) file (s.start_offsets.getD e 0) =
        .ok (none, [negOffsetMsg (s.start_offsets.getD e 0)
          (eegFileName s.dataroot (s.channels.getD c ""))]) ∧
      maskAt out c2 e2 =
        ((processOffset s.file_format out.read_size.toNat
            (eegFileName s.dataroot (s.channels.getD c2 "")) file2
            (s.start_offsets.getD e2 0)).toOption.map (fun pr => pr.1.isSome)).getD false := by
  obtain ⟨o, w, hpo, hmask, hslice, hwarn⟩ := read_binary_slice hok hc he hfile
  have hneg2 : processOffset s.file_format out.read_size.toNat
      (eegFileName s.dataroot (s.channels.getD c "")) file (s.start_offsets.getD e 0) =
        .ok (none, [negOffsetMsg (s.start_offsets.getD e 0)
          (eegFileName s.dataroot (s.channels.getD c ""))]) := by
    rw [processOffset, if_pos hneg]
  rw [hneg2] at hpo
  simp only [Except.ok.injEq, Prod.mk.injEq] at hpo
  obtain ⟨ho, hwval⟩ := hpo
  obtain ⟨o2, w2, hpo2, hmask2, -, -⟩ := read_binary_slice hok hc2 he2 hfile2
  refine ⟨?_, ?_, ?_, hneg2, ?_⟩
  · rw [hmask, ← ho]; rfl
  · rw [hslice, ← ho]; rfl
  · apply hwarn
    rw [← hwval]; simp
  · rw [hmask2, hpo2]; rfl

/-- C4 (witness): the offsets `[-5, 10]` of the spec over the 8-sample file
with read_size 4 — the slice of the negative offset is invalid and sentinel
with its warning emitted, and the mask at offset index 1 is the
`processOffset` outcome of offset 10 alone (here `false`, since offset 10 is
past end-of-file). -/
theorem negative_offset_isolation_witness :
    maskAt { read_size := 4
           , tensor := [[List.replicate 4 none, List.replicate 4 none]]
           , mask := [[false, false]]
           , warnings := [negOffsetMsg (-5) "root.001", truncReadMsg 10 "root.001"] } 0 0 = false ∧
      sliceAt { read_size := 4
              , tensor := [[List.replicate 4 none, List.replicate 4 none]]
              , mask := [[false, false]]
              , warnings := [negOffsetMsg (-5) "root.001", truncReadMsg 10 "root.001"] } 0 0 =
        List.replicate 4 none ∧
      negOffsetMsg (-5) "root.001" ∈
        [negOffsetMsg (-5) "root.001", truncReadMsg 10 "root.001"] ∧
      processOffset int16Format 4 "root.001" bytes16 (-5) = .ok (none, [negOffsetMsg (-5) "root.001"]) ∧
      maskAt { read_size := 4
             , tensor := [[List.replicate 4 none, List.replicate 4 none]]
             , mask := [[false, false]]
             , warnings := [negOffsetMsg (-5) "root.001", truncReadMsg 10 "root.001"] } 0 1 =
        ((processOffset int16Format 4 "root.001" bytes16 10).toOption.map
          (fun pr => pr.1.isSome)).getD false := by
  have h := negative_offset_isolation fsRoot { sBase with start_offsets := [-5, 10] }
    { read_size := 4
    , tensor := [[List.replicate 4 none, List.replicate 4 none]]
    , mask := [[false, false]]
    , warnings := [negOffsetMsg (-5) "root.001", truncReadMsg 10 "root.001"] }
    0 0 0 1 bytes16 bytes16 (by decide) (by decide) (by decide) (by decide) (by decide)
    (by decide) (by decide) (by decide) (by decide)
  exact h

/-- C5: at construction time, a `format` name present in the params but absent
from the fixed table fails with the fatal `Unsupported format` error whose
message lists the valid names (the constructor takes no filesystem, so no
channel data file is opened); an absent `format` key never fails — the
constructed reader falls back to the default int16 format with only a
recoverable warning; and every listed name is indeed in the table. -/
theorem format_resolution_at_construction (dataroot : String) (channels : List String)
    (start_offsets : List Int) (read_size : Int) (p q : ParamsDict) (name m : String)
    (hp : p.format = some name) (hbad : file_format_dict name = none)
    (hq : q.format = none) (hm : m ∈ allowedFormatNames) :
    mkReader dataroot channels start_offsets read_size p = .error (unsupportedFormatMsg name) ∧
      mkReader dataroot channels start_offsets read_size q =
        .ok ({ dataroot := dataroot, channels := channels, start_offsets := start_offsets
             , read_size := read_size, file_format := int16Format, gain := q.gain
             , samplerate := q.samplerate }, [missingFormatWarning]) ∧
      (file_format_dict m).isSome = true := by
  refine ⟨?_, ?_, ?_⟩
  · simp only [mkReader, resolveFileFormat, hp, hbad]
  · simp only [mkReader, resolveFileFormat, hq]
  · simp only [allowedFormatNames, List.mem_cons, List.not_mem_nil, or_false] at hm
    rcases hm with rfl | rfl | rfl | rfl | rfl | rfl | rfl <;> rfl

/-- C5 (witness): the unsupported name `bogus` fails construction with the
listing error, while an absent format key constructs the default-int16 reader
with the warning; `int16` itself is in the table. -/
theorem format_resolution_at_construction_witness :
    mkReader "root" ["001"] [0] 4 { format := some "bogus", gain := 2, samplerate := 500 } =
        .error (unsupportedFormatMsg "bogus") ∧
      mkReader "root" ["001"] [0] 4 { format := none, gain := 2, samplerate := 500 } =
        .ok ({ dataroot := "root", channels := ["001"], start_offsets := [0]
             , read_size := 4, file_format := int16Format, gain := 2
             , samplerate := 500 }, [missingFormatWarning]) ∧
      (file_format_dict "int16").isSome = true :=
  format_resolution_at_construction "root" ["001"] [0] 4
    { format := some "bogus", gain := 2, samplerate := 500 }
    { format := none, gain := 2, samplerate := 500 } "bogus" "int16"
    (by decide) (by decide) (by decide) (by decide)

/-! HDF5 fixtures -/

/-- A sample HDF5 container: ports `[1, 2]`, two channel rows, no `by_row`
attribute. -/
def h5Sample : Hdf5File := { by_row := none, ports := [1, 2], timeseries := [[1, 2], [3, 4]] }

/-- Filesystem holding only the container `data.h5`. -/
def fsH5 : FS :=
  { files := fun _ => none
  , h5files := fun n => if n = "data.h5" then some h5Sample else none }

/-- An HDF5 reader with a resolved (non-negative) read_size. -/
def sH5resolved : ReaderState :=
  { dataroot := "data.h5", channels := ["1"], start_offsets := [0, 4], read_size := 4
  , file_format := int16Format, gain := 2, samplerate := 500 }

/-- An HDF5 whole-file reader requesting channel `5`, which matches no port of
the container. -/
def sH5missing : ReaderState :=
  { dataroot := "data.h5", channels := ["5"], start_offsets := [0], read_size := -1
  , file_format := int16Format, gain := 1, samplerate := 500 }

/-- C6: with a resolved (non-negative) read_size, the tabular backend never
reaches its per-offset slicing loop: line 126 calls `len` with three arguments
(`np.empty((len(self.channels, len(self.start_offsets), self.read_size)))`),
raising `TypeError` and aborting the whole call. -/
theorem hdf5_resolved_read_size_type_error :
    read fsH5 sH5resolved = .error typeErrorMsg ∧
      read_hdf5 fsH5 sH5resolved = .error typeErrorMsg := by
  decide

/-- C7 (counterexample): a requested ChannelId (`5`) with no matching entry in
the port index of the container is not a fatal error in the tabular backend:
`read_hdf5` silently returns a zero-width channel selection (an empty tensor)
together with a full one-row all-`True` mask. -/
theorem missing_channel_fatal_counterexample :
    read_hdf5 fsH5 sH5missing = .ok ([], [[true]]) ∧ sH5missing.channels.length = 1 := by
  decide

/-- C7 (amended): in the binary backend a requested channel whose file is
absent is fatal — no successful call exists with a missing channel file; in
the tabular backend (whole-file mode) the call never fails on unmatched
ChannelIds: it returns the selected rows (zero-width when nothing matches)
with an all-`True` mask sized by the *requested* channel count.  (The overall
`read` call then aborts only later, when the `DataArray` labels mismatch the
zero-width tensor.) -/
theorem missing_channel_behaviour (fs : FS) (s : ReaderState) (out : RawResult) (c : Nat)
    (fs2 : FS) (s2 : ReaderState) (h2 : Hdf5File)
    (hok : read_binary fs s = .ok out) (hc : c < s.channels.length)
    (hh : fs2.h5files s2.dataroot = some h2) (hneg : s2.read_size < 0) :
    (fs.files (eegFileName s.dataroot (s.channels.getD c ""))).isSome = true ∧
      read_hdf5 fs2 s2 =
        .ok ((selectChannels h2 (s2.channels.map pyInt)).map (fun row => [row.map some]),
          List.replicate s2.channels.length [true]) := by
  refine ⟨read_binary_files_present hok hc, ?_⟩
  simp only [read_hdf5, hh]
  rw [if_pos hneg]

/-- C7 (witness): the amended claim at the scenario binary reader (channel
file present) and at the `data.h5` container with the unmatched channel `5`
(zero-width selection, one-row all-`True` mask, no error). -/
theorem missing_channel_behaviour_witness :
    (fsRoot.files (eegFileName sBase.dataroot (sBase.channels.getD 0 ""))).isSome = true ∧
      read_hdf5 fsH5 sH5missing =
        .ok ((selectChannels h5Sample (sH5missing.channels.map pyInt)).map
            (fun row => [row.map some]),
          List.replicate sH5missing.channels.length [true]) :=
  missing_channel_behaviour fsRoot sBase rawBase 0 fsH5 sH5missing h5Sample
    (by decide) (by decide) (by decide) (by decide)

/-- C8: `read` is idempotent on a constructed reader: a second call with the
state returned by a successful first call reproduces exactly the result and
state of the first call; and the only state change of the first call is the pinning
of `read_size` to its resolved value. -/
theorem read_idempotent (fs : FS) (s : ReaderState) (r : ReadResult) (s1 : ReaderState)
    (hok : read fs s = .ok (r, s1)) :
    read fs s1 = .ok (r, s1) ∧ s1 = { s with read_size := s1.read_size } := by
  have horig := hok
  rw [read] at hok
  split at hok
  · rename_i hcond
    rw [readH5Path] at hok
    split at hok
    · simp at hok
    · rename_i pr hpr
      split at hok
      · rename_i hsh
        simp only [Except.ok.injEq, Prod.mk.injEq] at hok
        obtain ⟨hr, hs1⟩ := hok
        subst hs1
        exact ⟨horig, rfl⟩
      · simp at hok
  · rename_i hcond
    rw [readBinPath] at hok
    split at hok
    · simp at hok
    · rename_i out hbin
      split at hok
      · rename_i hsh
        simp only [Except.ok.injEq, Prod.mk.injEq] at hok
        obtain ⟨hr, hs1⟩ := hok
        subst hs1
        have hpin := read_binary_pin hbin
        refine ⟨?_, by rfl⟩
        rw [read,
          if_neg (show ¬ pyEndsWith ({ s with read_size := out.read_size } :
            ReaderState).dataroot "h5" = true from hcond),
          readBinPath_ok hpin,
          if_pos (show shapeOk
            (applyGain ({ s with read_size := out.read_size } : ReaderState).gain out.tensor)
            ({ s with read_size := out.read_size } : ReaderState).channels.length
            ({ s with read_size := out.read_size } : ReaderState).start_offsets.length
            out.read_size.toNat = true from hsh),
          ← hr]
      · simp at hok

/-- C8 (witness): the scenario reader with unresolved read_size `-1` — the
first call pins `read_size` to 8 and a second call with the pinned state
returns the same tensor, mask and warnings. -/
theorem read_idempotent_witness :
    read fsRoot { { sBase with start_offsets := [0], read_size := -1 } with read_size := 8 } =
        .ok ({ tensor := [[[some 2, some 4, some 6, some 8, some 10, some 12, some 14, some 16]]]
             , mask := [[true]], warnings := [] },
          { { sBase with start_offsets := [0], read_size := -1 } with read_size := 8 }) ∧
      { { sBase with start_offsets := [0], read_size := -1 } with read_size := 8 } =
        { { sBase with start_offsets := [0], read_size := -1 } with
          read_size := ({ { sBase with start_offsets := [0], read_size := -1 } with
            read_size := 8 } : ReaderState).read_size } :=
  read_idempotent fsRoot { sBase with start_offsets := [0], read_size := -1 }
    { tensor := [[[some 2, some 4, some 6, some 8, some 10, some 12, some 14, some 16]]]
    , mask := [[true]], warnings := [] }
    { { sBase with start_offsets := [0], read_size := -1 } with read_size := 8 }
    (by decide)

/-- A reader whose offset list is empty. -/
def sNoOffsets : ReaderState := { sBase with start_offsets := [] }

/-- C9 (counterexample): an empty start-offset list is not rejected — the call
succeeds with an empty per-channel result — and the reader still proceeds to
open channel files: with the channel file absent the very same empty-offset
request fails with the file-not-found error. -/
theorem empty_request_rejected_counterexample :
    read_binary fsRoot sNoOffsets =
        .ok { read_size := 4, tensor := [[]], mask := [[]], warnings := [] } ∧
      read_binary fsNone sNoOffsets = .error (fileNotFoundMsg "root.001") := by
  decide

/-- C9 (amended): zero channels with an unresolved read_size fail only with
the accidental `IndexError` of `get_file_size` (before any file is opened);
zero channels with a resolved read_size succeed with an empty result, opening
no file; and zero start offsets are not rejected: the call opens every channel
file and returns a result with an empty offset axis for each channel. -/
theorem empty_request_behaviour (fs : FS) (s : ReaderState)
    (hall : s.channels.all (fun ch => (fs.files (eegFileName s.dataroot ch)).isSome) = true) :
    (s.channels = [] → s.read_size < 0 → read_binary fs s = .error indexErrorMsg) ∧
      (s.channels = [] → 0 ≤ s.read_size →
        read_binary fs s = .ok { read_size := s.read_size, tensor := [], mask := [], warnings := [] }) ∧
      (s.start_offsets = [] → 0 ≤ s.read_size →
        read_binary fs s = .ok { read_size := s.read_size
                               , tensor := List.replicate s.channels.length []
                               , mask := List.replicate s.channels.length []
                               , warnings := [] }) := by
  refine ⟨?_, ?_, ?_⟩
  · intro h0 hneg
    rw [read_binary, resolveReadSize, if_pos hneg, get_file_size, h0]
  · intro h0 hpos
    rw [read_binary, resolveReadSize, if_neg (by omega : ¬ s.read_size < 0)]
    show read_binary_resolved fs s.file_format s.dataroot s.channels s.start_offsets s.read_size =
      .ok { read_size := s.read_size, tensor := [], mask := [], warnings := [] }
    rw [read_binary_resolved, h0]
    rfl
  · intro hoff hpos
    rw [read_binary, resolveReadSize, if_neg (by omega : ¬ s.read_size < 0)]
    show read_binary_resolved fs s.file_format s.dataroot s.channels s.start_offsets s.read_size =
      .ok { read_size := s.read_size, tensor := List.replicate s.channels.length []
          , mask := List.replicate s.channels.length [], warnings := [] }
    rw [read_binary_resolved]
    have hrow : mapME (readChannel fs s.file_format s.read_size.toNat s.dataroot s.start_offsets)
        s.channels = .ok (List.replicate s.channels.length []) := by
      apply mapME_const_ok
      intro ch hchmem
      have hiss : (fs.files (eegFileName s.dataroot ch)).isSome = true :=
        List.all_eq_true.mp hall ch hchmem
      obtain ⟨file, hfile⟩ := Option.isSome_iff_exists.mp hiss
      rw [readChannel, hfile, hoff]
      rfl
    rw [hrow]
    show Except.ok (assemble s.read_size (List.replicate s.channels.length [])) = _
    rw [assemble]
    simp [List.map_replicate, flatten_replicate_nil]

/-- C9 (witness): the amended claim at the scenario filesystem with one
channel and an empty offset list: the call succeeds with one empty row. -/
theorem empty_request_behaviour_witness :
    (sNoOffsets.channels = [] → sNoOffsets.read_size < 0 →
        read_binary fsRoot sNoOffsets = .error indexErrorMsg) ∧
      (sNoOffsets.channels = [] → 0 ≤ sNoOffsets.read_size →
        read_binary fsRoot sNoOffsets =
          .ok { read_size := sNoOffsets.read_size, tensor := [], mask := [], warnings := [] }) ∧
      (sNoOffsets.start_offsets = [] → 0 ≤ sNoOffsets.read_size →
        read_binary fsRoot sNoOffsets =
          .ok { read_size := sNoOffsets.read_size
              , tensor := List.replicate sNoOffsets.channels.length []
              , mask := List.replicate sNoOffsets.channels.length []
              , warnings := [] }) :=
  empty_request_behaviour fsRoot sNoOffsets (by decide)

/-- C10: the sample count decoded for an offset comes from the byte count the
file read actually returned, not from read_size: when the returned byte count
is a whole multiple of the format width, the decode yields
`byte count / width` samples and the offset step just marks the slice invalid
when that count falls short of read_size; when the byte count is *not* a
multiple of the width, the decode step raises `struct.error`; and a successful
`read_binary` call can therefore only have seen aligned byte counts at every
non-negative offset. -/
theorem decode_count_from_bytes (fmt : FileFormat) (rs : Nat) (name : String)
    (file : List Nat) (off : Int) (fs : FS) (s : ReaderState) (out : RawResult)
    (c e : Nat) (cfile : List Nat)
    (hoff : 0 ≤ off) (hds : 0 < fmt.data_size)
    (hok : read_binary fs s = .ok out) (hc : c < s.channels.length)
    (he : e < s.start_offsets.length)
    (hcfile : fs.files (eegFileName s.dataroot (s.channels.getD c "")) = some cfile)
    (hoffe : 0 ≤ s.start_offsets.getD e 0) :
    (fmt.data_size ∣ (readBytes fmt rs file off).length →
        ((readBytes fmt rs file off).length / fmt.data_size < rs →
          processOffset fmt rs name file off = .ok (none, [truncReadMsg off name])) ∧
        (rs ≤ (readBytes fmt rs file off).length / fmt.data_size →
          processOffset fmt rs name file off =
            .ok (some (decodeChunks fmt.data_size (readBytes fmt rs file off)), []))) ∧
      (¬ fmt.data_size ∣ (readBytes fmt rs file off).length →
        processOffset fmt rs name file off =
          .error (structErrorMsg fmt.data_size (readBytes fmt rs file off).length)) ∧
      s.file_format.data_size ∣
        (readBytes s.file_format out.read_size.toNat cfile (s.start_offsets.getD e 0)).length := by
  refine ⟨?_, ?_, ?_⟩
  · intro hdvd
    have hmod : (readBytes fmt rs file off).length % fmt.data_size = 0 := by
      obtain ⟨k, hk⟩ := hdvd
      rw [hk, Nat.mul_mod_right]
    have hu : unpack fmt.data_size (readBytes fmt rs file off) =
        .ok (decodeChunks fmt.data_size (readBytes fmt rs file off)) := by
      rw [unpack, if_pos hmod]
    have hlen := decodeChunks_length_aligned hds hdvd
    constructor
    · intro hlt
      simp only [processOffset, if_neg (show ¬ off < 0 by omega), hu]
      rw [if_pos (by rw [hlen]; exact hlt)]
    · intro hge
      simp only [processOffset, if_neg (show ¬ off < 0 by omega), hu]
      rw [if_neg (by rw [hlen]; omega)]
  · intro hndvd
    have hmod : ¬ (readBytes fmt rs file off).length % fmt.data_size = 0 :=
      fun hmod => hndvd (Nat.dvd_of_mod_eq_zero hmod)
    simp only [processOffset, if_neg (show ¬ off < 0 by omega), unpack, if_neg hmod]
  · obtain ⟨o, w, hpo, -, -, -⟩ := read_binary_slice hok hc he hcfile
    rw [processOffset, if_neg (show ¬ s.start_offsets.getD e 0 < 0 by omega)] at hpo
    split at hpo
    · simp at hpo
    · rename_i vals hu
      rw [unpack] at hu
      split at hu
      · rename_i hmod
        exact Nat.dvd_of_mod_eq_zero hmod
      · simp at hu

/-- C10 (witness): int16 over the 16-byte file at offset 6 with read_size 4 —
the read returns 4 bytes, an aligned whole multiple of 2, decoding to
`4 / 2 = 2 < 4` samples, so the step is the non-raising invalid-slice outcome;
instantiated alongside the scenario call at channel 0, offset 0 (whose byte
count is divisible by 2). -/
theorem decode_count_from_bytes_witness :
    ((2 : Nat) ∣ (readBytes int16Format 4 bytes16 6).length →
        ((readBytes int16Format 4 bytes16 6).length / 2 < 4 →
          processOffset int16Format 4 "root.001" bytes16 6 =
            .ok (none, [truncReadMsg 6 "root.001"])) ∧
        (4 ≤ (readBytes int16Format 4 bytes16 6).length / 2 →
          processOffset int16Format 4 "root.001" bytes16 6 =
            .ok (some (decodeChunks 2 (readBytes int16Format 4 bytes16 6)), []))) ∧
      (¬ (2 : Nat) ∣ (readBytes int16Format 4 bytes16 6).length →
        processOffset int16Format 4 "root.001" bytes16 6 =
          .error (structErrorMsg 2 (readBytes int16Format 4 bytes16 6).length)) ∧
      (2 : Nat) ∣ (readBytes int16Format 4 bytes16 0).length :=
  decode_count_from_bytes int16Format 4 "root.001" bytes16 6 fsRoot sBase rawBase 0 0 bytes16
    (by decide) (by decide) (by decide) (by decide) (by decide) (by decide) (by decide)

end BaseRawReader
